import Mathlib

/-!
Verification of the pgmd repository: a tool that extracts PostgreSQL catalog
metadata (internal/pg/pg.go) and renders it as a markdown document
(internal/markdown, the renderer file). The Go code is shallowly embedded:
each Go function becomes a Lean function of the same name operating on the
same data model; strings.Builder accumulation becomes string concatenation,
strings.Join becomes goJoin, and the database access of FetchSchemas is
parameterised by a family of fetch functions returning Except, modelling
the (value, error) pairs of the Go sub-fetches.
-/

set_option maxHeartbeats 1000000

namespace Pgmd

/-- Model of a sequence of WriteString calls in a loop over a list:
the concatenation of the rendered pieces in order. -/
def concatList : List String → String
  | [] => ""
  | s :: rest => s ++ concatList rest

/-- Model of strings.Join from the Go standard library: the elements in
order with the separator between each adjacent pair, none at either end. -/
def goJoin (sep : String) : List String → String
  | [] => ""
  | [s] => s
  | s :: rest => s ++ sep ++ goJoin sep rest

/-- Column record from internal/pg/pg.go (the Go field Type is Typ here,
since Type is reserved in Lean). -/
structure Column where
  Name : String
  Typ : String
  Nullable : Bool
  IsPK : Bool
  IsUnique : Bool
  FKRef : String
  Default : String
deriving DecidableEq

/-- Index record from internal/pg/pg.go. -/
structure Index where
  Name : String
  Columns : List String
  IsUnique : Bool
  IsPrimary : Bool
deriving DecidableEq

/-- Table record from internal/pg/pg.go. -/
structure Table where
  Schema : String
  Name : String
  Columns : List Column
  Indexes : List Index
deriving DecidableEq

/-- View record from internal/pg/pg.go. -/
structure View where
  Schema : String
  Name : String
  Columns : List Column
deriving DecidableEq

/-- Function record from internal/pg/pg.go. -/
structure Function where
  Schema : String
  Name : String
  Arguments : String
  ReturnType : String
deriving DecidableEq

/-- CustomType record from internal/pg/pg.go. -/
structure CustomType where
  Schema : String
  Name : String
  Kind : String
  Values : List String
deriving DecidableEq

/-- MaterializedView record from internal/pg/pg.go. -/
structure MaterializedView where
  Schema : String
  Name : String
  Columns : List Column
deriving DecidableEq

/-- Sequence record from internal/pg/pg.go; the int64 fields become Int. -/
structure Sequence where
  Schema : String
  Name : String
  DataType : String
  Start : Int
  Min : Int
  Max : Int
  Increment : Int
  Cycle : Bool
deriving DecidableEq

/-- Trigger record from internal/pg/pg.go. -/
structure Trigger where
  Schema : String
  Table : String
  Name : String
  Event : String
  Timing : String
  Function : String
deriving DecidableEq

/-- SchemaInfo record from internal/pg/pg.go. -/
structure SchemaInfo where
  Name : String
  Tables : List Table
  Views : List View
  MaterializedViews : List MaterializedView
  Sequences : List Sequence
  Triggers : List Trigger
  Functions : List Function
  Types : List CustomType
deriving DecidableEq

/-- buildConstraints from the markdown renderer: append each applicable
marker to the parts slice in source order, then strings.Join with a comma. -/
def buildConstraints (col : Column) : String :=
  goJoin ", " (
    (if col.IsPK then ["PK"] else []) ++
    (if !col.Nullable then ["NOT NULL"] else []) ++
    (if col.IsUnique && !col.IsPK then ["UNIQUE"] else []) ++
    (if col.FKRef ≠ "" then ["FK→" ++ col.FKRef] else []) ++
    (if col.Default ≠ "" then ["DEFAULT " ++ col.Default] else []))

/-- The constraint markers as the specification describes them: the ordered
list of optional markers PK, NOT NULL, UNIQUE (only when not PK), FK→target,
DEFAULT expr, keeping exactly the applicable ones. -/
def constraintMarkers (col : Column) : List String :=
  [if col.IsPK then some "PK" else none,
   if !col.Nullable then some "NOT NULL" else none,
   if col.IsUnique && !col.IsPK then some "UNIQUE" else none,
   if col.FKRef ≠ "" then some ("FK→" ++ col.FKRef) else none,
   if col.Default ≠ "" then some ("DEFAULT " ++ col.Default) else none].filterMap id

/-- One index entry of the consolidated indexes line in renderTable: the
string is built incrementally exactly as the Go code does. -/
def indexEntry (idx : Index) : String :=
  let s0 := idx.Name ++ " (" ++ goJoin ", " idx.Columns
  let s1 := if idx.IsPrimary then s0 ++ ", PK" else
            if idx.IsUnique then s0 ++ ", UNIQUE" else s0
  s1 ++ ")"

/-- The positional index marker as the specification describes it:
PK when primary, else UNIQUE when unique, else nothing. -/
def indexMarker (idx : Index) : String :=
  if idx.IsPrimary then ", PK" else if idx.IsUnique then ", UNIQUE" else ""

/-- The index entry as the specification describes it: name, the columns in
index key order, then the positional marker. -/
def indexEntrySpec (idx : Index) : String :=
  idx.Name ++ " (" ++ goJoin ", " idx.Columns ++ indexMarker idx ++ ")"

/-- renderTable from the markdown renderer. -/
def renderTable (table : Table) : String :=
  "#### " ++ table.Name ++ "\n\n" ++
  "| Column | Type | Constraints |\n" ++
  "|--------|------|-------------|\n" ++
  concatList (table.Columns.map fun col =>
    "| " ++ col.Name ++ " | " ++ col.Typ ++ " | " ++ buildConstraints col ++ " |\n") ++
  (if 0 < table.Indexes.length then
    "\n**Indexes:** " ++ goJoin ", " (table.Indexes.map indexEntry) ++ "\n"
   else "") ++
  "\n"

/-- renderView from the markdown renderer. -/
def renderView (view : View) : String :=
  "#### " ++ view.Name ++ "\n\n" ++
  "| Column | Type |\n" ++
  "|--------|------|\n" ++
  concatList (view.Columns.map fun col => "| " ++ col.Name ++ " | " ++ col.Typ ++ " |\n") ++
  "\n"

/-- renderMaterializedView from the markdown renderer. -/
def renderMaterializedView (mv : MaterializedView) : String :=
  "#### " ++ mv.Name ++ "\n\n" ++
  "| Column | Type |\n" ++
  "|--------|------|\n" ++
  concatList (mv.Columns.map fun col => "| " ++ col.Name ++ " | " ++ col.Typ ++ " |\n") ++
  "\n"

/-- renderSequence from the markdown renderer. -/
def renderSequence (seq : Sequence) : String :=
  "- `" ++ seq.Name ++ "` (" ++ seq.DataType ++ "): start=" ++ toString seq.Start ++
  ", inc=" ++ toString seq.Increment ++ ", range=[" ++ toString seq.Min ++ ".." ++
  toString seq.Max ++ "]" ++ (if seq.Cycle then ", CYCLE" else "") ++ "\n"

/-- renderTrigger from the markdown renderer. -/
def renderTrigger (trig : Trigger) : String :=
  "- `" ++ trig.Name ++ "` on `" ++ trig.Table ++ "`: " ++ trig.Timing ++ " " ++
  trig.Event ++ " → " ++ trig.Function ++ "()\n"

/-- renderFunction from the markdown renderer. -/
def renderFunction (fn : Function) : String :=
  if fn.Arguments = "" then
    "- `" ++ fn.Name ++ "() → " ++ fn.ReturnType ++ "`\n"
  else
    "- `" ++ fn.Name ++ "(" ++ fn.Arguments ++ ") → " ++ fn.ReturnType ++ "`\n"

/-- renderType from the markdown renderer. -/
def renderType (t : CustomType) : String :=
  if t.Kind = "enum" then
    "- `" ++ t.Name ++ "`: " ++ goJoin ", " (t.Values.map fun v => "'" ++ v ++ "'") ++ "\n"
  else
    "- `" ++ t.Name ++ "` (composite): " ++ goJoin ", " t.Values ++ "\n"

/-- The Tables section body of renderSchema: heading plus each table. -/
def tablesBlock (s : SchemaInfo) : String :=
  "### Tables\n\n" ++ concatList (s.Tables.map renderTable)

/-- The Views section body of renderSchema. -/
def viewsBlock (s : SchemaInfo) : String :=
  "### Views\n\n" ++ concatList (s.Views.map renderView)

/-- The Materialized Views section body of renderSchema. -/
def matViewsBlock (s : SchemaInfo) : String :=
  "### Materialized Views\n\n" ++ concatList (s.MaterializedViews.map renderMaterializedView)

/-- The Sequences section body of renderSchema (trailing blank line as in
the source). -/
def sequencesBlock (s : SchemaInfo) : String :=
  "### Sequences\n\n" ++ concatList (s.Sequences.map renderSequence) ++ "\n"

/-- The Triggers section body of renderSchema. -/
def triggersBlock (s : SchemaInfo) : String :=
  "### Triggers\n\n" ++ concatList (s.Triggers.map renderTrigger) ++ "\n"

/-- The Functions section body of renderSchema. -/
def functionsBlock (s : SchemaInfo) : String :=
  "### Functions\n\n" ++ concatList (s.Functions.map renderFunction) ++ "\n"

/-- The Custom Types section body of renderSchema. -/
def typesBlock (s : SchemaInfo) : String :=
  "### Custom Types\n\n" ++ concatList (s.Types.map renderType) ++ "\n"

/-- renderSchema from the markdown renderer: the schema heading, then each
section emitted by its own length guard, in the source order of the guards. -/
def renderSchema (s : SchemaInfo) : String :=
  "## Schema: " ++ s.Name ++ "\n\n" ++
  (if 0 < s.Tables.length then tablesBlock s else "") ++
  (if 0 < s.Views.length then viewsBlock s else "") ++
  (if 0 < s.MaterializedViews.length then matViewsBlock s else "") ++
  (if 0 < s.Sequences.length then sequencesBlock s else "") ++
  (if 0 < s.Triggers.length then triggersBlock s else "") ++
  (if 0 < s.Functions.length then functionsBlock s else "") ++
  (if 0 < s.Types.length then typesBlock s else "")

/-- The emitted sections as the specification describes them: the fixed-order
candidate list Tables, Views, Materialized Views, Sequences, Triggers,
Functions, Custom Types, keeping exactly the sections whose collection is
non-empty. -/
def emittedSections (s : SchemaInfo) : List String :=
  [if 0 < s.Tables.length then some (tablesBlock s) else none,
   if 0 < s.Views.length then some (viewsBlock s) else none,
   if 0 < s.MaterializedViews.length then some (matViewsBlock s) else none,
   if 0 < s.Sequences.length then some (sequencesBlock s) else none,
   if 0 < s.Triggers.length then some (triggersBlock s) else none,
   if 0 < s.Functions.length then some (functionsBlock s) else none,
   if 0 < s.Types.length then some (typesBlock s) else none].filterMap id

/-- A schema rendering as the specification describes it: the schema heading
followed by the emitted sections, in order, concatenated. -/
def renderSchemaSections (s : SchemaInfo) : String :=
  "## Schema: " ++ s.Name ++ "\n\n" ++ concatList (emittedSections s)

/-- Render from the markdown renderer: the document heading, then each schema
with the separator written before every schema except the first (the i > 0
guard of the loop). -/
def Render (schemas : List SchemaInfo) : String :=
  "# Database Schema Documentation\n\n" ++
  (match schemas with
   | [] => ""
   | s :: rest => renderSchema s ++ concatList (rest.map fun x => "\n---\n\n" ++ renderSchema x))

/-- The database-backed sub-fetches FetchSchemas performs per schema, one
field per fetch function of internal/pg/pg.go, each modelled as a function
from the schema name to a (value, error) result. -/
structure Fetchers (ε : Type) where
  tables : String → Except ε (List Table)
  views : String → Except ε (List View)
  matViews : String → Except ε (List MaterializedView)
  sequences : String → Except ε (List Sequence)
  triggers : String → Except ε (List Trigger)
  functions : String → Except ε (List Function)
  types : String → Except ε (List CustomType)

/-- The seven sub-fetch kinds of FetchSchemas, in the order the Go code
performs them. -/
inductive FetchKind
  | tables | views | matViews | sequences | triggers | functions | types
deriving DecidableEq

/-- The context text FetchSchemas wraps around a failing sub-fetch, before
the schema name (the fmt.Errorf format strings of pg.go). -/
def fetchCtx : FetchKind → String
  | .tables => "fetching tables for schema "
  | .views => "fetching views for schema "
  | .matViews => "fetching materialized views for schema "
  | .sequences => "fetching sequences for schema "
  | .triggers => "fetching triggers for schema "
  | .functions => "fetching functions for schema "
  | .types => "fetching types for schema "

/-- The error of one sub-fetch for one schema, when that fetch fails. -/
def fetchFails (F : Fetchers ε) (k : FetchKind) (s : String) : Option ε :=
  match k with
  | .tables => match F.tables s with | .error e => some e | .ok _ => none
  | .views => match F.views s with | .error e => some e | .ok _ => none
  | .matViews => match F.matViews s with | .error e => some e | .ok _ => none
  | .sequences => match F.sequences s with | .error e => some e | .ok _ => none
  | .triggers => match F.triggers s with | .error e => some e | .ok _ => none
  | .functions => match F.functions s with | .error e => some e | .ok _ => none
  | .types => match F.types s with | .error e => some e | .ok _ => none

/-- The per-schema body of the FetchSchemas loop in pg.go: the seven
sub-fetches in source order, each early-returning its error wrapped with the
schema name (the wrapped message paired with the preserved cause). -/
def fetchSchemaInfo (F : Fetchers ε) (s : String) : Except (String × ε) SchemaInfo :=
  match F.tables s with
  | .error e => .error ("fetching tables for schema " ++ s, e)
  | .ok tables =>
  match F.views s with
  | .error e => .error ("fetching views for schema " ++ s, e)
  | .ok views =>
  match F.matViews s with
  | .error e => .error ("fetching materialized views for schema " ++ s, e)
  | .ok matViews =>
  match F.sequences s with
  | .error e => .error ("fetching sequences for schema " ++ s, e)
  | .ok sequences =>
  match F.triggers s with
  | .error e => .error ("fetching triggers for schema " ++ s, e)
  | .ok triggers =>
  match F.functions s with
  | .error e => .error ("fetching functions for schema " ++ s, e)
  | .ok functions =>
  match F.types s with
  | .error e => .error ("fetching types for schema " ++ s, e)
  | .ok types =>
    .ok { Name := s, Tables := tables, Views := views, MaterializedViews := matViews,
          Sequences := sequences, Triggers := triggers, Functions := functions,
          Types := types }

/-- FetchSchemas from pg.go: the per-schema loop, aborting with the first
wrapped error; the Go (nil, err) return is the error branch of Except. -/
def FetchSchemas (F : Fetchers ε) : List String → Except (String × ε) (List SchemaInfo)
  | [] => .ok []
  | s :: rest =>
    match fetchSchemaInfo F s with
    | .error e => .error e
    | .ok info =>
      match FetchSchemas F rest with
      | .error e => .error e
      | .ok infos => .ok (info :: infos)

/-- The timing CASE expression of the fetchTriggers query in pg.go:
BEFORE when bit 2 of tgtype is set, AFTER when the masked value is zero,
INSTEAD OF in the remaining branch. -/
def decodeTiming (tgtype : Nat) : String :=
  if tgtype &&& 2 = 2 then "BEFORE"
  else if tgtype &&& 2 = 0 then "AFTER"
  else "INSTEAD OF"

/-- Model of strings.Split for a one-character separator, at the character
list level: splitting the empty list yields one empty part, matching Go. -/
def goSplit (sep : Char) : List Char → List (List Char)
  | [] => [[]]
  | c :: cs =>
    if c = sep then [] :: goSplit sep cs
    else match goSplit sep cs with
      | [] => [[c]]
      | p :: ps => (c :: p) :: ps

/-- Model of unicode.IsSpace from the Go standard library, the predicate
strings.TrimSpace trims by: the Unicode White_Space code points — the
Latin-1 fast path tab through carriage return (9–13), space, NEL (U+0085)
and NBSP (U+00A0), plus the White_Space table entries U+1680,
U+2000–U+200A, U+2028, U+2029, U+202F, U+205F and U+3000. -/
def goIsSpace (c : Char) : Bool :=
  (9 ≤ c.val && c.val ≤ 13) || c.val = 32 || c.val = 0x85 || c.val = 0xA0 ||
  c.val = 0x1680 || (0x2000 ≤ c.val && c.val ≤ 0x200A) ||
  c.val = 0x2028 || c.val = 0x2029 || c.val = 0x202F || c.val = 0x205F ||
  c.val = 0x3000

/-- Model of strings.TrimSpace at the character list level: drop Go
whitespace from the front, then from the back (via reverse). -/
def goTrim (l : List Char) : List Char :=
  ((l.dropWhile goIsSpace).reverse.dropWhile goIsSpace).reverse

/-- ParseSchemas from pg.go: split the input on commas, trim each part,
keep the non-empty parts in order. -/
def ParseSchemas (input : String) : List String :=
  ((((goSplit ',' input.data).map goTrim).filter fun l => !l.isEmpty).map fun l => String.mk l)

/-- A fetcher family whose tables fetch always fails, for evaluating
FetchSchemas at a concrete failing input. -/
def failingFetchers : Fetchers String where
  tables := fun _ => .error "boom"
  views := fun _ => .ok []
  matViews := fun _ => .ok []
  sequences := fun _ => .ok []
  triggers := fun _ => .ok []
  functions := fun _ => .ok []
  types := fun _ => .ok []

/- ===================== basic lemmas ===================== -/

theorem concat_emit (c : Prop) [Decidable c] (x : String) (l : List (Option String)) :
    concatList (((if c then some x else none) :: l).filterMap id) =
      (if c then x else "") ++ concatList (l.filterMap id) := by
  by_cases h : c <;> simp [h, concatList]

theorem goJoin_cons_cons (sep a b : String) (l : List String) :
    goJoin sep (a :: b :: l) = a ++ sep ++ goJoin sep (b :: l) := by
  simp [goJoin]

theorem fetchSchemaInfo_cases {ε : Type} (F : Fetchers ε) (s : String) :
    (∃ info, fetchSchemaInfo F s = .ok info ∧ ∀ k, fetchFails F k s = none) ∨
    (∃ k c, fetchFails F k s = some c ∧
      fetchSchemaInfo F s = .error (fetchCtx k ++ s, c)) := by
  unfold fetchSchemaInfo
  cases h1 : F.tables s with
  | error e => exact .inr ⟨.tables, e, by simp [fetchFails, h1], by simp [fetchCtx]⟩
  | ok v1 =>
  cases h2 : F.views s with
  | error e => exact .inr ⟨.views, e, by simp [fetchFails, h2], by simp [fetchCtx]⟩
  | ok v2 =>
  cases h3 : F.matViews s with
  | error e => exact .inr ⟨.matViews, e, by simp [fetchFails, h3], by simp [fetchCtx]⟩
  | ok v3 =>
  cases h4 : F.sequences s with
  | error e => exact .inr ⟨.sequences, e, by simp [fetchFails, h4], by simp [fetchCtx]⟩
  | ok v4 =>
  cases h5 : F.triggers s with
  | error e => exact .inr ⟨.triggers, e, by simp [fetchFails, h5], by simp [fetchCtx]⟩
  | ok v5 =>
  cases h6 : F.functions s with
  | error e => exact .inr ⟨.functions, e, by simp [fetchFails, h6], by simp [fetchCtx]⟩
  | ok v6 =>
  cases h7 : F.types s with
  | error e => exact .inr ⟨.types, e, by simp [fetchFails, h7], by simp [fetchCtx]⟩
  | ok v7 =>
    exact .inl ⟨_, rfl, fun k => by
      cases k <;> simp [fetchFails, h1, h2, h3, h4, h5, h6, h7]⟩

theorem head_dropWhile_ws (p : Char → Bool) :
    ∀ (l : List Char) (c : Char), (l.dropWhile p).head? = some c → p c = false := by
  intro l
  induction l with
  | nil => intro c h; simp [List.dropWhile] at h
  | cons a as ih =>
    intro c h
    rw [List.dropWhile_cons] at h
    by_cases ha : p a
    · rw [if_pos ha] at h
      exact ih c h
    · rw [if_neg ha] at h
      have hac : a = c := by simpa using h
      rw [← hac]
      simpa using ha

theorem goTrim_head (l : List Char) (c : Char)
    (h : (goTrim l).head? = some c) : goIsSpace c = false := by
  have hsuf : List.IsSuffix
      (((l.dropWhile goIsSpace).reverse).dropWhile goIsSpace)
      ((l.dropWhile goIsSpace).reverse) := List.dropWhile_suffix _
  obtain ⟨t, ht⟩ := hsuf
  have hA : l.dropWhile goIsSpace = goTrim l ++ t.reverse := by
    have h2 := congrArg List.reverse ht
    simpa [goTrim] using h2.symm
  cases hz : goTrim l with
  | nil => rw [hz] at h; simp at h
  | cons c0 rest =>
    rw [hz] at h
    simp only [List.head?_cons, Option.some.injEq] at h
    subst h
    have hhead : (l.dropWhile goIsSpace).head? = some c0 := by
      rw [hA, hz]
      simp
    exact head_dropWhile_ws _ l c0 hhead

theorem getLast_goTrim (l : List Char) (c : Char)
    (h : (goTrim l).getLast? = some c) : goIsSpace c = false := by
  unfold goTrim at h
  rw [List.getLast?_reverse] at h
  exact head_dropWhile_ws _ _ c h

theorem goTrim_all_ws (l : List Char) (h : ∀ x ∈ l, goIsSpace x = true) :
    goTrim l = [] := by
  unfold goTrim
  rw [List.dropWhile_eq_nil_iff.mpr h]
  simp

theorem goSplit_ne_nil (sep : Char) (l : List Char) : goSplit sep l ≠ [] := by
  induction l with
  | nil => simp [goSplit]
  | cons a as ih =>
    by_cases ha : a = sep
    · simp [goSplit, ha]
    · simp only [goSplit]
      rw [if_neg ha]
      cases h : goSplit sep as with
      | nil => simp
      | cons p ps => simp

theorem goSplit_mem (sep : Char) :
    ∀ (l : List Char) (part : List Char), part ∈ goSplit sep l →
      ∀ c ∈ part, c ∈ l ∧ ¬(c = sep) := by
  intro l
  induction l with
  | nil =>
    intro part hp c hc
    simp [goSplit] at hp
    subst hp
    simp at hc
  | cons a as ih =>
    intro part hp c hc
    by_cases ha : a = sep
    · rw [show goSplit sep (a :: as) = [] :: goSplit sep as by
        simp [goSplit, ha]] at hp
      rcases List.mem_cons.mp hp with rfl | hmem
      · simp at hc
      · obtain ⟨h1, h2⟩ := ih part hmem c hc
        exact ⟨List.mem_cons_of_mem _ h1, h2⟩
    · cases hsp : goSplit sep as with
      | nil => exact absurd hsp (goSplit_ne_nil sep as)
      | cons p ps =>
        rw [show goSplit sep (a :: as) = (a :: p) :: ps by
          simp only [goSplit]; rw [if_neg ha, hsp]] at hp
        rcases List.mem_cons.mp hp with rfl | hmem
        · rcases List.mem_cons.mp hc with rfl | hcp
          · exact ⟨List.mem_cons_self _ _, ha⟩
          · obtain ⟨h1, h2⟩ := ih p (hsp ▸ List.mem_cons_self p ps) c hcp
            exact ⟨List.mem_cons_of_mem _ h1, h2⟩
        · obtain ⟨h1, h2⟩ := ih part (hsp ▸ List.mem_cons_of_mem p hmem) c hc
          exact ⟨List.mem_cons_of_mem _ h1, h2⟩

/- ===================== claim theorems ===================== -/

/-- C1: for every Column, buildConstraints equals the comma-join of exactly
the applicable markers in the order PK, NOT NULL, UNIQUE (only without PK),
FK→target, DEFAULT expr; UNIQUE never appears among the markers of a primary
key column; and a nullable column with no other flags renders an empty cell. -/
theorem buildConstraints_spec (col : Column) :
    buildConstraints col = goJoin ", " (constraintMarkers col) ∧
    (col.IsPK = true → "UNIQUE" ∉ constraintMarkers col) ∧
    (col.Nullable = true → col.IsPK = false → col.IsUnique = false →
      col.FKRef = "" → col.Default = "" → buildConstraints col = "") := by
  refine ⟨?_, ?_, ?_⟩
  · cases hpk : col.IsPK <;> cases hn : col.Nullable <;> cases hu : col.IsUnique <;>
      by_cases hf : col.FKRef = "" <;> by_cases hd : col.Default = "" <;>
      simp [buildConstraints, constraintMarkers, hpk, hn, hu, hf, hd]
  · intro hpk
    have hfk : ("FK→" ++ col.FKRef) ≠ "UNIQUE" := by
      intro h; have h2 := congrArg String.data h; simp at h2
    have hdef : ("DEFAULT " ++ col.Default) ≠ "UNIQUE" := by
      intro h; have h2 := congrArg String.data h; simp at h2
    cases hn : col.Nullable <;> by_cases hf : col.FKRef = "" <;>
      by_cases hd : col.Default = "" <;>
      simp [constraintMarkers, hpk, hn, hf, hd, Ne.symm hfk, Ne.symm hdef]
  · intro h1 h2 h3 h4 h5
    simp [buildConstraints, h1, h2, h3, h4, h5, goJoin]

/-- Witness for C1 at concrete columns: a PK+unique column carries no UNIQUE
marker; a plain nullable column renders an empty constraints cell. -/
theorem buildConstraints_spec_witness :
    "UNIQUE" ∉ constraintMarkers ⟨"id", "uuid", false, true, true, "", ""⟩ ∧
    buildConstraints ⟨"name", "text", true, false, false, "", ""⟩ = "" :=
  ⟨(buildConstraints_spec _).2.1 rfl, (buildConstraints_spec _).2.2 rfl rfl rfl rfl rfl⟩

/-- C2: renderSchema is the schema heading followed by exactly the non-empty
sections in the fixed order Tables, Views, Materialized Views, Sequences,
Triggers, Functions, Custom Types (renderSchemaSections), and a SchemaInfo
with every collection empty renders as the schema heading alone. -/
theorem renderSchema_section_order (s : SchemaInfo) :
    renderSchema s = renderSchemaSections s ∧
    (s.Tables = [] → s.Views = [] → s.MaterializedViews = [] → s.Sequences = [] →
      s.Triggers = [] → s.Functions = [] → s.Types = [] →
      renderSchema s = "## Schema: " ++ s.Name ++ "\n\n") := by
  constructor
  · simp only [renderSchemaSections, emittedSections, concat_emit, List.filterMap_nil,
      concatList]
    simp [renderSchema, String.append_assoc]
  · intro h1 h2 h3 h4 h5 h6 h7
    simp [renderSchema, h1, h2, h3, h4, h5, h6, h7]

/-- Witness for C2 at the empty schema: only the schema heading is emitted. -/
theorem renderSchema_section_order_witness :
    renderSchema ⟨"public", [], [], [], [], [], [], []⟩ =
      "## Schema: " ++ "public" ++ "\n\n" :=
  (renderSchema_section_order _).2 rfl rfl rfl rfl rfl rfl rfl

/-- C3: the timing decode of fetchTriggers maps the instead-of bitmask 81
(row 1 + update 16 + instead 64) to AFTER, and in fact yields only BEFORE or
AFTER for every bitmask: the INSTEAD OF branch of the CASE is unreachable,
since tgtype AND 2 is always 0 or 2. -/
theorem decodeTiming_never_instead :
    decodeTiming 81 = "AFTER" ∧
    ∀ t : Nat, decodeTiming t = "BEFORE" ∨ decodeTiming t = "AFTER" := by
  refine ⟨rfl, ?_⟩
  intro t
  have h : t &&& 2 = (t.testBit 1).toNat * 2 := by
    have h2 := Nat.and_two_pow t 1
    simpa using h2
  cases hb : t.testBit 1 with
  | false => right; simp [decodeTiming, h, hb]
  | true => left; simp [decodeTiming, h, hb]

/-- C5: Render emits the document heading and then the schemas joined with
the separator placed between each adjacent pair only; a single schema gets
no separator. -/
theorem Render_separators :
    (∀ schemas : List SchemaInfo, Render schemas =
      "# Database Schema Documentation\n\n" ++
        goJoin "\n---\n\n" (schemas.map renderSchema)) ∧
    (∀ s : SchemaInfo, Render [s] =
      "# Database Schema Documentation\n\n" ++ renderSchema s) := by
  have step : ∀ (a : String) (rest : List SchemaInfo),
      a ++ concatList (rest.map fun x => "\n---\n\n" ++ renderSchema x) =
        goJoin "\n---\n\n" (a :: rest.map renderSchema) := by
    intro a rest
    induction rest generalizing a with
    | nil => simp [concatList, goJoin]
    | cons r rest ih =>
      simp only [List.map_cons, concatList]
      rw [goJoin_cons_cons, ← ih (renderSchema r)]
      simp [String.append_assoc]
  have main : ∀ schemas : List SchemaInfo, Render schemas =
      "# Database Schema Documentation\n\n" ++
        goJoin "\n---\n\n" (schemas.map renderSchema) := by
    intro schemas
    cases schemas with
    | nil => simp [Render, goJoin]
    | cons s rest =>
      simp only [Render, List.map_cons]
      rw [← step (renderSchema s) rest]
  exact ⟨main, fun s => by rw [main [s]]; simp [goJoin]⟩

/-- C6: an index entry of the consolidated indexes line is the name, the
columns in key order, and the positional marker with PK taking precedence:
a primary index always renders with PK and never with UNIQUE. -/
theorem indexEntry_spec (idx : Index) :
    indexEntry idx = indexEntrySpec idx ∧
    (idx.IsPrimary = true →
      indexEntry idx = idx.Name ++ " (" ++ goJoin ", " idx.Columns ++ ", PK)" ∧
      indexMarker idx = ", PK") := by
  constructor
  · cases hp : idx.IsPrimary <;> cases hu : idx.IsUnique <;>
      simp [indexEntry, indexEntrySpec, indexMarker, hp, hu, String.append_assoc]
  · intro hp
    refine ⟨?_, by simp [indexMarker, hp]⟩
    simp only [indexEntry, hp, if_pos]
    rw [show (", PK)" : String) = ", PK" ++ ")" from rfl]
    simp [String.append_assoc]

/-- Witness for C6 at a concrete primary and unique index: the marker is PK
alone. -/
theorem indexEntry_spec_witness :
    indexEntry ⟨"users_pkey", ["id"], true, true⟩ =
      "users_pkey" ++ " (" ++ goJoin ", " ["id"] ++ ", PK)" ∧
    indexMarker ⟨"users_pkey", ["id"], true, true⟩ = ", PK" :=
  (indexEntry_spec _).2 rfl

/-- C7: Render is total — it returns a string for every input list — and on
the empty list the output is exactly the document heading. -/
theorem Render_total :
    (∀ schemas : List SchemaInfo, ∃ out : String, Render schemas = out) ∧
    Render [] = "# Database Schema Documentation\n\n" :=
  ⟨fun schemas => ⟨Render schemas, rfl⟩, by simp [Render]⟩

/-- C8: a function with empty arguments renders as name() → returnType, and
one with a non-empty argument string renders as name(arguments) → returnType. -/
theorem renderFunction_spec (fn : Function) :
    (fn.Arguments = "" →
      renderFunction fn = "- `" ++ fn.Name ++ "() → " ++ fn.ReturnType ++ "`\n") ∧
    (fn.Arguments ≠ "" →
      renderFunction fn =
        "- `" ++ fn.Name ++ "(" ++ fn.Arguments ++ ") → " ++ fn.ReturnType ++ "`\n") := by
  constructor <;> intro h <;> simp [renderFunction, h]

/-- Witness for C8 at concrete functions with empty and non-empty argument
strings. -/
theorem renderFunction_spec_witness :
    renderFunction ⟨"public", "now_utc", "", "timestamptz"⟩ =
      "- `" ++ "now_utc" ++ "() → " ++ "timestamptz" ++ "`\n" ∧
    renderFunction ⟨"public", "add", "a int, b int", "int"⟩ =
      "- `" ++ "add" ++ "(" ++ "a int, b int" ++ ") → " ++ "int" ++ "`\n" :=
  ⟨(renderFunction_spec _).1 rfl, (renderFunction_spec _).2 (by decide)⟩

/-- C10: every kind other than the exact string enum takes the composite
branch of renderType, and only the enum kind produces the single-quoted
value list. -/
theorem renderType_spec (t : CustomType) :
    (t.Kind ≠ "enum" →
      renderType t = "- `" ++ t.Name ++ "` (composite): " ++ goJoin ", " t.Values ++ "\n") ∧
    (t.Kind = "enum" →
      renderType t = "- `" ++ t.Name ++ "`: " ++
        goJoin ", " (t.Values.map fun v => "'" ++ v ++ "'") ++ "\n") := by
  constructor <;> intro h <;> simp [renderType, h]

/-- Witness for C10 at an unexpected kind and at the enum kind. -/
theorem renderType_spec_witness :
    renderType ⟨"public", "pt", "weird", ["x int", "y int"]⟩ =
      "- `" ++ "pt" ++ "` (composite): " ++ goJoin ", " ["x int", "y int"] ++ "\n" ∧
    renderType ⟨"public", "status", "enum", ["pending", "active"]⟩ =
      "- `" ++ "status" ++ "`: " ++
        goJoin ", " (["pending", "active"].map fun v => "'" ++ v ++ "'") ++ "\n" :=
  ⟨(renderType_spec _).1 (by decide), (renderType_spec _).2 rfl⟩

/-- C4: when FetchSchemas fails it reports an error whose message is the
fetch context of a sub-fetch that failed for a schema of the request, with
that schema name appended, and whose cause is that sub-fetch's own error;
conversely any failing sub-fetch of any requested schema makes the whole run
return an error (the Except error branch carries no result list, modelling
the Go nil result). -/
theorem FetchSchemas_error_spec {ε : Type} (F : Fetchers ε) (schemas : List String) :
    (∀ m c, FetchSchemas F schemas = .error (m, c) →
      ∃ s ∈ schemas, ∃ k, fetchFails F k s = some c ∧ m = fetchCtx k ++ s) ∧
    ((∃ s ∈ schemas, ∃ k c, fetchFails F k s = some c) →
      ∃ e, FetchSchemas F schemas = .error e) := by
  induction schemas with
  | nil =>
    constructor
    · intro m c h; simp [FetchSchemas] at h
    · rintro ⟨s, hs, -⟩; simp at hs
  | cons s rest ih =>
    constructor
    · intro m c h
      rcases fetchSchemaInfo_cases F s with ⟨info, hok, -⟩ | ⟨k, c', hfail, herr⟩
      · simp only [FetchSchemas] at h
        rw [hok] at h
        cases hr : FetchSchemas F rest with
        | error e =>
          rw [hr] at h
          injection h with h
          obtain ⟨s', hs', k, hk, hm⟩ := ih.1 m c (by rw [hr, ← h])
          exact ⟨s', List.mem_cons_of_mem _ hs', k, hk, hm⟩
        | ok infos => rw [hr] at h; exact absurd h (by simp)
      · simp only [FetchSchemas] at h
        rw [herr] at h
        injection h with h
        obtain ⟨hm, hc⟩ := Prod.mk.inj h
        exact ⟨s, List.mem_cons_self _ _, k, hc ▸ hfail, hm.symm⟩
    · rintro ⟨s', hs', k, c, hfail⟩
      rcases List.mem_cons.mp hs' with rfl | hmem
      · rcases fetchSchemaInfo_cases F s' with ⟨info, hok, hnone⟩ | ⟨k', c', hfail', herr⟩
        · rw [hnone k] at hfail; exact absurd hfail (by simp)
        · exact ⟨_, by simp only [FetchSchemas]; rw [herr]⟩
      · obtain ⟨e, he⟩ := ih.2 ⟨s', hmem, k, c, hfail⟩
        rcases fetchSchemaInfo_cases F s with ⟨info, hok, -⟩ | ⟨k', c', hfail', herr⟩
        · exact ⟨e, by simp only [FetchSchemas]; rw [hok, he]⟩
        · exact ⟨_, by simp only [FetchSchemas]; rw [herr]⟩

/-- Witness for C4: with a fetcher family whose tables fetch fails, the run
on one schema returns the wrapped error naming that schema, and the failure
forces an error result. -/
theorem FetchSchemas_error_spec_witness :
    (∃ s ∈ ["public"], ∃ k, fetchFails failingFetchers k s = some "boom" ∧
      "fetching tables for schema public" = fetchCtx k ++ s) ∧
    (∃ e, FetchSchemas failingFetchers ["public"] = .error e) := by
  have h := FetchSchemas_error_spec failingFetchers ["public"]
  have hrun : FetchSchemas failingFetchers ["public"] =
      .error ("fetching tables for schema public", "boom") := rfl
  exact ⟨h.1 _ _ hrun, h.2 ⟨"public", by simp, .tables, "boom", rfl⟩⟩

/-- C9: every entry ParseSchemas returns is non-empty with no leading or
trailing whitespace; the returned entries are, in order, a sublist of the
trimmed comma-separated parts; and an input of only commas and whitespace
(the empty string included) yields the empty list. -/
theorem ParseSchemas_spec (input : String) :
    (∀ e ∈ ParseSchemas input,
      e ≠ "" ∧
      e.data.head?.all (fun c => !goIsSpace c) = true ∧
      e.data.getLast?.all (fun c => !goIsSpace c) = true) ∧
    List.Sublist ((ParseSchemas input).map String.data)
      ((goSplit ',' input.data).map goTrim) ∧
    ((∀ c ∈ input.data, c = ',' ∨ goIsSpace c = true) → ParseSchemas input = []) := by
  refine ⟨?_, ?_, ?_⟩
  · intro e he
    simp only [ParseSchemas, List.mem_map] at he
    obtain ⟨m, hm, rfl⟩ := he
    obtain ⟨hm1, hm2⟩ := List.mem_filter.mp hm
    obtain ⟨part, hpart, rfl⟩ := List.mem_map.mp hm1
    refine ⟨?_, ?_, ?_⟩
    · intro h0
      have hnil : goTrim part = [] := by
        have h2 := congrArg String.data h0
        simpa using h2
      rw [hnil] at hm2
      simp at hm2
    · cases hh : (goTrim part).head? with
      | none => simp [hh]
      | some c => simp [hh, goTrim_head part c hh]
    · cases hh : (goTrim part).getLast? with
      | none => simp [hh]
      | some c => simp [hh, getLast_goTrim part c hh]
  · simp only [ParseSchemas, List.map_map]
    have hid : (String.data ∘ fun l => String.mk l) = id := rfl
    rw [hid, List.map_id]
    exact List.filter_sublist _
  · intro hall
    simp only [ParseSchemas]
    have hfe : (((goSplit ',' input.data).map goTrim).filter fun l => !l.isEmpty) = [] := by
      rw [List.filter_eq_nil_iff]
      intro m hm1
      obtain ⟨part, hpart, rfl⟩ := List.mem_map.mp hm1
      have hnil : goTrim part = [] := goTrim_all_ws part (fun x hx => by
        obtain ⟨hin, hnc⟩ := goSplit_mem ',' input.data part hpart x hx
        rcases hall x hin with h | h
        · exact absurd h hnc
        · exact h)
      simp [hnil]
    rw [hfe]
    rfl

/-- Witness for C9: entry a of parsing a padded list is non-empty and
trimmed, and an input of commas and spaces parses to the empty list. -/
theorem ParseSchemas_spec_witness :
    (("a" : String) ≠ "" ∧
      ("a" : String).data.head?.all (fun c => !goIsSpace c) = true ∧
      ("a" : String).data.getLast?.all (fun c => !goIsSpace c) = true) ∧
    ParseSchemas ", , " = [] :=
  ⟨(ParseSchemas_spec " a, ,b ").1 "a" (by decide),
   (ParseSchemas_spec ", , ").2.2 (by decide)⟩

end Pgmd
